import Mathlib

/-!
Shallow embedding of the kenny-loggings audit-trail compaction engine
(`loggings/models.py`, `loggings/helpers.py`, `loggings/logger.py`).

Modelling conventions:
* JSON state blobs are represented structurally: a `Blob` carries the
  serialized model identifier, the instance primary key and the ordered
  `fields` map, mirroring the single-element list
  `[{"model": ..., "pk": ..., "fields": {...}}]` produced by Django's JSON
  serializer.  String equality of two serialized blobs in the Python code
  corresponds to structural equality of `Blob`s (the serializer is
  deterministic: fixed key order, fixed separators).
* The database is a `DB`: the `Log` table in row-creation order (Django's
  `timestamp` is `auto_now_add`, so creation order is timestamp order and
  `order_by("-timestamp")` is list reversal), the `LogExtra` table, the
  autoincrement counters, and a `journal` of Log-table write events used to
  express persistence-ordering properties.
* Python `dict` semantics (insertion order preserved, assignment to an
  existing key replaces the value in place) are embedded as association
  lists with `dictInsert`/`dictUpdate`.
* The `AssertionError` raised by the sanity check in
  `Logger.squash_log_sequence` is embedded as `Except.error`.
-/

namespace Loggings

/-- Modelled from the spec: the constants module of this repository is not
under `src/`; per the spec the action is "one of `CREATE | UPDATE | DELETE`
(small enumerated integer in source systems)".  Only the distinctness of the
three codes is ever used, so the integers are modelled as an enumeration. -/
inductive Action where
  | CREATE
  | UPDATE
  | DELETE
deriving DecidableEq, Repr

/-- One serialized snapshot, i.e. the parsed form of a `current_json_blob` /
`previous_json_blob` string: `{"model": ..., "pk": ..., "fields": {...}}`. -/
structure Blob where
  model : String
  pk : String
  fields : List (String × String)
deriving DecidableEq, Repr

/-- A row of the `Log` model (`loggings/models.py`).  `id = none` is an
unsaved instance (Python `pk is None`); `previous_json_blob = none` models the
empty-string default of the `TextField`. -/
structure Log where
  id : Option Nat
  action : Action
  app_name : String
  model_name : String
  model_instance_pk : String
  previous_json_blob : Option Blob
  current_json_blob : Blob
  user_id : Option Nat
deriving DecidableEq, Repr

/-- A row of the `LogExtra` model. -/
structure ExtraRow where
  id : Nat
  log_id : Nat
  field_name : String
  field_value : String
deriving DecidableEq, Repr

/-- A Log-table write event, recorded in creation order by the persistence
primitives, for stating persistence-ordering properties. -/
inductive Ev where
  | save (id : Nat)
  | delete (id : Nat)
deriving DecidableEq, Repr

/-- The database: `logs` in creation (= timestamp) order, `extraRows`, the
autoincrement counters, and the journal of Log-table write events. -/
structure DB where
  logs : List Log
  extraRows : List ExtraRow
  nextLogId : Nat
  nextExtraId : Nat
  journal : List Ev
deriving DecidableEq, Repr

/-- An audited model instance: app label, model name, primary key, the
model's field metadata `(field name, editable)` in declaration order, the
instance's field values, and related model instances reachable by attribute
access (for `__`-chained extras). -/
inductive Obj where
  | mk (app_label : String) (object_name : String) (pk : String)
      (fields : List (String × Bool)) (values : List (String × String))
      (related : List (String × Obj))

def Obj.app_label : Obj → String
  | .mk a _ _ _ _ _ => a

def Obj.object_name : Obj → String
  | .mk _ o _ _ _ _ => o

def Obj.pk : Obj → String
  | .mk _ _ p _ _ _ => p

def Obj.fields : Obj → List (String × Bool)
  | .mk _ _ _ f _ _ => f

def Obj.values : Obj → List (String × String)
  | .mk _ _ _ _ v _ => v

def Obj.related : Obj → List (String × Obj)
  | .mk _ _ _ _ _ r => r

/-- `[f.name for f in model._meta.get_fields() if f.editable]`. -/
def editableFieldNames (obj : Obj) : List String :=
  obj.fields.filterMap (fun fe => if fe.2 then some fe.1 else none)

/-- `serializers.serialize("json", [obj], fields=fieldNames)`, parsed:
the model identifier, the pk, and the named fields (in model declaration
order, which is the order of `fieldNames`). -/
def serializeObj (obj : Obj) (fieldNames : List String) : Blob :=
  { model := obj.app_label ++ "." ++ obj.object_name,
    pk := obj.pk,
    fields := fieldNames.filterMap (fun f => (obj.values.lookup f).map (fun v => (f, v))) }

/-- Python dict assignment `d[k] = v` on an insertion-ordered dict:
replace in place if the key exists, else append. -/
def dictInsert (d : List (String × String)) (kv : String × String) :
    List (String × String) :=
  if d.any (fun p => p.1 == kv.1) then
    d.map (fun p => if p.1 == kv.1 then kv else p)
  else d ++ [kv]

/-- Python `d.update(src)` on insertion-ordered dicts. -/
def dictUpdate (d src : List (String × String)) : List (String × String) :=
  src.foldl dictInsert d

/-- The ids of a list of logs, in order (persisted logs only). -/
def idsOf : List Log → List Nat
  | [] => []
  | l :: t => l.id.toList ++ idsOf t

/-- Whether a log's primary key is in `ids`. -/
def logIdIn (l : Log) (ids : List Nat) : Bool :=
  match l.id with
  | some i => ids.contains i
  | none => false

/-- `Log.objects.filter(id__in=ids).order_by("-timestamp")`: the matching
rows, newest first (reversal of creation order). -/
def fetchByIds (db : DB) (ids : List Nat) : List Log :=
  (db.logs.filter (fun l => logIdIn l ids)).reverse

/-- `log.save()`: INSERT with a fresh autoincrement id when `pk is None`,
otherwise UPDATE of the row in place (the `auto_now_add` timestamp, hence the
row's position, is unchanged).  Returns the saved row. -/
def DB.saveLog (db : DB) (log : Log) : DB × Log :=
  match log.id with
  | some i =>
      ({ db with
          logs := db.logs.map (fun l => if l.id = some i then log else l),
          journal := db.journal ++ [Ev.save i] }, log)
  | none =>
      let saved := { log with id := some db.nextLogId }
      ({ db with
          logs := db.logs ++ [saved],
          nextLogId := db.nextLogId + 1,
          journal := db.journal ++ [Ev.save db.nextLogId] }, saved)

/-- `Log.objects.filter(pk__in=ids).delete()`: removes the logs and, by the
`on_delete=CASCADE` of `LogExtra.log`, their extra rows. -/
def DB.deleteLogs (db : DB) (ids : List Nat) : DB :=
  { db with
      logs := db.logs.filter (fun l => !(logIdIn l ids)),
      extraRows := db.extraRows.filter (fun r => !(ids.contains r.log_id)),
      journal := db.journal ++ ids.map Ev.delete }

/-- `LogExtra.objects.get_or_create(log_id=..., field_name=..., field_value=...)`. -/
def extraGetOrCreate (db : DB) (lid : Nat) (fn fv : String) : DB × ExtraRow :=
  match db.extraRows.find?
      (fun r => r.log_id == lid && r.field_name == fn && r.field_value == fv) with
  | some r => (db, r)
  | none =>
      let row : ExtraRow :=
        { id := db.nextExtraId, log_id := lid, field_name := fn, field_value := fv }
      ({ db with
          extraRows := db.extraRows ++ [row],
          nextExtraId := db.nextExtraId + 1 }, row)

/-- `getattr` restricted to plain field values. -/
def objGetValue (o : Obj) (f : String) : Option String :=
  o.values.lookup f

/-- `getattr` restricted to related model instances. -/
def objGetRelated (o : Obj) (f : String) : Option Obj :=
  o.related.lookup f

/-- The `for step in steps: obj = getattr(obj, step)` walk. -/
def walkSteps : Obj → List String → Option Obj
  | o, [] => some o
  | o, s :: rest =>
      match objGetRelated o s with
      | some o2 => walkSteps o2 rest
      | none => none

/-- `s.split("__")` at the character level: splitting on a double
underscore, written as an executable structural recursion (Python's
`str.split` with a multi-character separator; greedy left-to-right scan). -/
def splitOnDunder : List Char → List (List Char)
  | '_' :: '_' :: rest => [] :: splitOnDunder rest
  | c :: rest =>
      match splitOnDunder rest with
      | [] => [[c]]
      | h :: t => (c :: h) :: t
  | [] => [[]]

/-- `field.split("__")` as a list of strings. -/
def splitPath (s : String) : List String :=
  (splitOnDunder s.toList).map (fun cs => String.mk cs)

/-- Resolution of one extra reference in `Logger._create_extra_logs`:
split on `"__"`, walk all but the last segment, read the final field.
`none` models an attribute-resolution failure (ruled out for references
validated by `Logger.__init__`). -/
def resolve_extra_field (obj : Obj) (field : String) : Option (String × String) :=
  match (splitPath field).reverse with
  | [] => none
  | [f] => (objGetValue obj f).map (fun v => (f, v))
  | fname :: revSteps =>
      match walkSteps obj revSteps.reverse with
      | some o => (objGetValue o fname).map (fun v => (fname, v))
      | none => none

/-- `Logger._create_extra_logs`: one `get_or_create` per resolved extra
reference, attached to the saved log's pk. -/
def create_extra_logs (db : DB) (log : Log) (obj : Obj) (extras : List String) : DB :=
  extras.foldl
    (fun d field =>
      match resolve_extra_field obj field with
      | some (fn, fv) => (extraGetOrCreate d (log.id.getD 0) fn fv).1
      | none => d)
    db

/-- The sequence-context mapping: `log_key → list of log ids`, a
`defaultdict(list)`. -/
abbrev SeqMap : Type := List (String × List Nat)

/-- `log_sequences.get(log_key, [])`. -/
def seqGet (m : SeqMap) (k : String) : List Nat :=
  (m.lookup k).getD []

/-- `log_sequences[log_key] = v`. -/
def seqSet (m : SeqMap) (k : String) (v : List Nat) : SeqMap :=
  (k, v) :: m.filter (fun p => p.1 != k)

/-- `"{0.app_name}-{0.model_name}-{0.model_instance_pk}"`. -/
def logKey (l : Log) : String :=
  l.app_name ++ "-" ++ l.model_name ++ "-" ++ l.model_instance_pk

/-- The DELETE branch of the squash walk (`logger.py` lines 184-190): walk
newest-first, collect same-user ids, stop at the first user mismatch. -/
def deleteWalk (u : Option Nat) : List Log → List Nat
  | [] => []
  | p :: rest => if p.user_id = u then p.id.toList ++ deleteWalk u rest else []

/-- One merge step of the UPDATE branch:
`prev_log_dict["fields"].update(curr_log_dict["fields"])` re-dumped — the
target keeps its own `model`/`pk`, its fields are overlaid by the source's. -/
def mergeBlobs (target source : Blob) : Blob :=
  { target with fields := dictUpdate target.fields source.fields }

/-- The UPDATE branch of the squash walk (`logger.py` lines 195-222): walk
newest-first; stop at the first user mismatch; the sanity check
(`prev_log.action == ACTION_DELETE or current_log.action == ACTION_CREATE`)
raises; otherwise merge the accumulator's fields onto the walked-to record,
record the accumulator's pk (if persisted) for deletion, and continue with
the walked-to record as the new accumulator.  Returns the final accumulator
and the pks recorded for deletion. -/
def updateWalk (u : Option Nat) : Log → List Log → Except String (Log × List Nat)
  | cur, [] => .ok (cur, [])
  | cur, p :: rest =>
      if p.user_id ≠ u then .ok (cur, [])
      else if p.action = Action.DELETE ∨ cur.action = Action.CREATE then
        .error "AssertionError"
      else
        let merged := { p with current_json_blob := mergeBlobs p.current_json_blob cur.current_json_blob }
        match updateWalk u merged rest with
        | .ok (r, ds) => .ok (r, cur.id.toList ++ ds)
        | .error e => .error e

/-- The tail of `Logger.squash_log_sequence` past the walk (`logger.py`
lines 224-234): the cancellation check (`resultant_log.current_json_blob ==
resultant_log.previous_json_blob`, marking a persisted resultant for
deletion and dropping it) followed by the bulk deletion of `to_delete` and
the pruning of the id list. -/
def finalizeSquash (db : DB) (prev_log_ids : List Nat) (resultant : Log)
    (dels : List Nat) : DB × Option Log × List Nat :=
  let cancelled : Option Log × List Nat :=
    if resultant.previous_json_blob = some resultant.current_json_blob then
      (none, dels ++ resultant.id.toList)
    else (some resultant, dels)
  let to_delete := cancelled.2
  if to_delete = [] then (db, cancelled.1, prev_log_ids)
  else
    (db.deleteLogs to_delete, cancelled.1,
     prev_log_ids.filter (fun pk => !(to_delete.contains pk)))

/-- `Logger.squash_log_sequence(log, prev_log_ids)` over a database state.
Returns the updated database (deletions applied), the resultant log
(`none` = fully cancelled) and the updated id list. -/
def squash_log_sequence (db : DB) (log : Log) (prev_log_ids : List Nat) :
    Except String (DB × Option Log × List Nat) :=
  let prev_logs := fetchByIds db prev_log_ids
  if prev_logs = [] then .ok (db, some log, prev_log_ids)
  else
    let walkResult : Except String (Log × List Nat) :=
      if log.action = Action.DELETE then .ok (log, deleteWalk log.user_id prev_logs)
      else if log.action = Action.UPDATE then updateWalk log.user_id log prev_logs
      else .ok (log, [])
    match walkResult with
    | .error e => .error e
    | .ok (resultant, dels) => .ok (finalizeSquash db prev_log_ids resultant dels)

/-- The mutable state threaded through `Logger.create`: the database and the
(possibly absent) sequence-context mapping. -/
structure LogState where
  db : DB
  seq : Option SeqMap
deriving DecidableEq

/-- The transient `Log` instance built at the top of `Logger.create`
(`logger.py` lines 116-135): action, entity identity, the editable-field
serializations of the two objects, and the acting user's pk. -/
def buildLog (action : Action) (current_obj : Obj) (previous_obj : Option Obj)
    (user : Option Nat) : Log :=
  let fieldNames := editableFieldNames current_obj
  { id := none,
    action := action,
    app_name := current_obj.app_label,
    model_name := current_obj.object_name,
    model_instance_pk := current_obj.pk,
    previous_json_blob := previous_obj.map (fun p => serializeObj p fieldNames),
    current_json_blob := serializeObj current_obj fieldNames,
    user_id := user }

/-- The tail of `Logger.create` past the no-op filter (`logger.py` lines
141-167): reconcile against the sequence context when one is active, save,
attach extras, and update the context. -/
def createMain (st : LogState) (action : Action) (current_obj : Obj)
    (previous_obj : Option Obj) (user : Option Nat) (extras : List String) :
    Except String (LogState × Option Log) :=
  let log := buildLog action current_obj previous_obj user
  let log_key := logKey log
  match st.seq with
  | none =>
      let sv := st.db.saveLog log
      let db2 := create_extra_logs sv.1 sv.2 current_obj extras
      .ok ({ st with db := db2 }, some sv.2)
  | some seqs =>
      match squash_log_sequence st.db log (seqGet seqs log_key) with
      | .error e => .error e
      | .ok (db1, logOpt, updatedIds) =>
          let seqs1 := seqSet seqs log_key updatedIds
          match logOpt with
          | none => .ok ({ db := db1, seq := some seqs1 }, none)
          | some lg =>
              let created := lg.id.isNone
              let sv := db1.saveLog lg
              let db3 := create_extra_logs sv.1 sv.2 current_obj extras
              let seqs2 :=
                if created then
                  seqSet seqs1 log_key (seqGet seqs1 log_key ++ [sv.2.id.getD 0])
                else seqs1
              .ok ({ db := db3, seq := some seqs2 }, some sv.2)

/-- `Logger(...).create()` (`logger.py` lines 116-167): build the log from
the editable-field serializations, discard no-ops, then `createMain`.
`Logger.__init__`'s argument validation happens upstream of this function
and is not modelled.  The `AssertionError` of the squash sanity check
propagates as `Except.error`. -/
def Logger.create (st : LogState) (action : Action) (current_obj : Obj)
    (previous_obj : Option Obj) (user : Option Nat) (extras : List String) :
    Except String (LogState × Option Log) :=
  let log := buildLog action current_obj previous_obj user
  if previous_obj.isSome ∧ log.previous_json_blob = some log.current_json_blob then
    .ok (st, none)
  else createMain st action current_obj previous_obj user extras

/-- `Logger.create_manual_extra(log_id, field_name, field_value)`:
`Log.objects.get(pk=log_id)` (`none` models `Log.DoesNotExist`) followed by
an unconditional `LogExtra.objects.create`. -/
def Logger.create_manual_extra (db : DB) (log_id : Nat)
    (field_name field_value : String) : Option (DB × ExtraRow) :=
  match db.logs.find? (fun l => l.id == some log_id) with
  | none => none
  | some log =>
      let row : ExtraRow :=
        { id := db.nextExtraId, log_id := log.id.getD 0,
          field_name := field_name, field_value := field_value }
      some ({ db with
                extraRows := db.extraRows ++ [row],
                nextExtraId := db.nextExtraId + 1 }, row)

/-- `helpers.create_extra(log_id, field_name, value)`: a bare
`LogExtra.objects.get_or_create`. -/
def create_extra (db : DB) (log_id : Nat) (field_name value : String) :
    DB × ExtraRow :=
  extraGetOrCreate db log_id field_name value

/-- The deduplication key of `helpers.normalize_extras`: the f-string
`f"{key} {val}"`. -/
def dedupKey (kv : String × String) : String :=
  kv.1 ++ " " ++ kv.2

/-- One iteration of the `unique_extras[f"{key} {val}"] = (key, val)` loop:
Python dict assignment keeps the first-insertion position of an existing key
and replaces its value. -/
def insertExtraPair (acc : List (String × (String × String)))
    (kv : String × String) : List (String × (String × String)) :=
  if acc.any (fun p => p.1 == dedupKey kv) then
    acc.map (fun p => if p.1 == dedupKey kv then (p.1, kv) else p)
  else acc ++ [(dedupKey kv, kv)]

/-- `helpers.normalize_extras`, over already-resolved attribute references:
the attribute-path resolution producing `resolved_extras` is outside the
embedded core (the spec's §1 places the derivation of `(name, value)` pairs
from dotted paths out of scope; only its output contract matters here), so
the function is embedded from the `combined_extras` line on:
`combined_extras = resolved_extras + (manual_extras or [])`, deduplicated by
the string key `f"{key} {val}"`, values collected in first-insertion order. -/
def normalize_extras (resolved_extras manual_extras : List (String × String)) :
    List (String × String) :=
  ((resolved_extras ++ manual_extras).foldl insertExtraPair []).map (fun p => p.2)

/-- Scenario harness: perform one `Logger.create` call and keep the
resulting state (states are only inspected on runs where no assertion
fires). -/
def runLog (st : LogState) (action : Action) (current_obj : Obj)
    (previous_obj : Option Obj) (user : Option Nat) (extras : List String) :
    LogState :=
  match Logger.create st action current_obj previous_obj user extras with
  | .ok (st', _) => st'
  | .error _ => st

/-- The empty database. -/
def emptyDB : DB :=
  { logs := [], extraRows := [], nextLogId := 0, nextExtraId := 0, journal := [] }

/-- A fresh state with an active, empty sequence context
(`begin_log_sequence`). -/
def initState : LogState :=
  { db := emptyDB, seq := some ([] : SeqMap) }

/-- The UPDATE-walk accumulator after merging backward through a list of
prior records, newest first: each step overlays the accumulator's fields
onto the walked-to record and continues from it. -/
def mergeAccum (cur : Log) (prevs : List Log) : Log :=
  prevs.foldl
    (fun c p => { p with current_json_blob := mergeBlobs p.current_json_blob c.current_json_blob })
    cur

/-- A concrete audited instance with one editable field `name`. -/
def widget (v : String) : Obj :=
  Obj.mk "app" "Widget" "1" [("name", true)] [("name", v)] []

/-- The serialization of `widget v`. -/
def widgetBlob (v : String) : Blob :=
  { model := "app.Widget", pk := "1", fields := [("name", v)] }

/-- A concrete audited instance with three editable fields, for extras
scenarios. -/
def widget3 (n c s : String) : Obj :=
  Obj.mk "app" "Widget" "1" [("name", true), ("color", true), ("size", true)]
    [("name", n), ("color", c), ("size", s)] []

/-- A concrete audited instance with an editable field `name` and a
non-editable field `cache`. -/
def widgetNE (n s : String) : Obj :=
  Obj.mk "app" "Widget" "1" [("name", true), ("cache", false)]
    [("name", n), ("cache", s)] []

/-- A persisted log row for a `widget` instance. -/
def storedLog (i : Nat) (a : Action) (p : Option String) (c : String) (u : Nat) : Log :=
  { id := some i, action := a, app_name := "app", model_name := "Widget",
    model_instance_pk := "1", previous_json_blob := p.map widgetBlob,
    current_json_blob := widgetBlob c, user_id := some u }

/-- Scenario harness for `Logger.create_manual_extra`: keep the updated
database (or the old one when the referenced log does not exist). -/
def runManualExtra (db : DB) (lid : Nat) (fn fv : String) : DB :=
  match Logger.create_manual_extra db lid fn fv with
  | some (db', _) => db'
  | none => db

/-- A state holding two persisted same-actor UPDATE rows for one widget,
with both ids tracked in the active sequence context. -/
def twoUpdatesState : LogState :=
  { db := { logs := [storedLog 0 Action.UPDATE (some "X") "A" 1,
                     storedLog 1 Action.UPDATE (some "A") "B" 1],
            extraRows := [], nextLogId := 2, nextExtraId := 0, journal := [] },
    seq := some [("app-Widget-1", [0, 1])] }

/-- The state after reconciling a third same-actor UPDATE against
`twoUpdatesState`. -/
def twoUpdatesFinal : LogState :=
  runLog twoUpdatesState Action.UPDATE (widget "C") (some (widget "B")) (some 1) []

/-- A database holding a single persisted CREATE row with pk 0. -/
def oneLogDB : DB :=
  { logs := [storedLog 0 Action.CREATE none "A" 1], extraRows := [],
    nextLogId := 1, nextExtraId := 0, journal := [] }

/-- The intermediate states of the create-then-updates scenario: one
persisted widget CREATE row in state `v`, tracked by the context, after `n`
saves. -/
def c4State (v : String) (n : Nat) : LogState :=
  { db := { logs := [storedLog 0 Action.CREATE none v 1], extraRows := [],
            nextLogId := 1, nextExtraId := 0,
            journal := List.replicate n (Ev.save 0) },
    seq := some [("app-Widget-1", [0])] }

/-- The database after persisting `UPDATE(prev=F, curr=T)` as pk 0. -/
def flipDB : DB :=
  { logs := [storedLog 0 Action.UPDATE (some "F") "T" 1], extraRows := [],
    nextLogId := 1, nextExtraId := 0, journal := [Ev.save 0] }

/-- A transient (unsaved) widget log literal. -/
def buildLogLit (a : Action) (p : Option String) (c : String) (u : Nat) : Log :=
  { id := none, action := a, app_name := "app", model_name := "Widget",
    model_instance_pk := "1", previous_json_blob := p.map widgetBlob,
    current_json_blob := widgetBlob c, user_id := some u }

/-- The transient second flip record, `UPDATE(prev=T, curr=F)`. -/
def flipCand : Log :=
  buildLogLit Action.UPDATE (some "T") "F" 1

/-- A database with a CREATE by actor 2 followed by an UPDATE by actor 1,
for the DELETE-walk witness. -/
def c6DB : DB :=
  { logs := [storedLog 0 Action.CREATE none "A" 2,
             storedLog 1 Action.UPDATE (some "A") "B" 1],
    extraRows := [], nextLogId := 2, nextExtraId := 0, journal := [] }

/-- A state with one persisted CREATE row whose id is tracked by the active
sequence context. -/
def oneLogState : LogState :=
  { db := oneLogDB, seq := some [("app-Widget-1", [0])] }

/-- The no-op filter of `Logger.create` (lines 137-139): when a previous
object is supplied and its serialization equals the current one, the call
returns `none` and the state — database, sequence context included — is
untouched. -/
theorem create_noop_filter (st : LogState) (action : Action) (cur : Obj)
    (prevObj : Option Obj) (user : Option Nat) (extras : List String)
    (hs : prevObj.isSome)
    (h : prevObj.map (fun p => serializeObj p (editableFieldNames cur)) =
         some (serializeObj cur (editableFieldNames cur))) :
    Logger.create st action cur prevObj user extras = .ok (st, none) := by
  unfold Logger.create
  rw [if_pos]
  exact ⟨hs, h⟩

/-- C7: recording an UPDATE whose previous state is present and equal
(as a serialized state) to its current state yields `absent`: no record is
persisted and the sequence context — in particular the prior id list — is
unchanged, before any reconciliation takes place. -/
theorem c7_noop_update_absent (st : LogState) (prev cur : Obj)
    (user : Option Nat) (extras : List String)
    (h : serializeObj prev (editableFieldNames cur) =
         serializeObj cur (editableFieldNames cur)) :
    Logger.create st Action.UPDATE cur (some prev) user extras = .ok (st, none) :=
  create_noop_filter st Action.UPDATE cur (some prev) user extras rfl (by rw [Option.map_some', h])

/-- Witness for C7 at a concrete state `S`: previous and current both the
widget in state `"A"`. -/
theorem c7_noop_update_absent_witness :
    Logger.create initState Action.UPDATE (widget "A") (some (widget "A"))
      (some 1) [] = .ok (initState, none) :=
  c7_noop_update_absent initState (widget "A") (widget "A") (some 1) [] rfl

/-- `serializeObj` reads only the named fields: two objects with the same
identity that agree on every named field's value serialize identically. -/
theorem serializeObj_ext (p c : Obj) (names : List String)
    (happ : p.app_label = c.app_label) (hobj : p.object_name = c.object_name)
    (hpk : p.pk = c.pk)
    (hvals : ∀ f ∈ names, p.values.lookup f = c.values.lookup f) :
    serializeObj p names = serializeObj c names := by
  unfold serializeObj
  rw [happ, hobj, hpk]
  have : names.filterMap (fun f => (p.values.lookup f).map (fun v => (f, v))) =
      names.filterMap (fun f => (c.values.lookup f).map (fun v => (f, v))) := by
    induction names with
    | nil => rfl
    | cons a t ih =>
        simp only [List.filterMap_cons]
        rw [hvals a (List.mem_cons_self a t),
          ih (fun f hf => hvals f (List.mem_cons_of_mem a hf))]
  rw [this]

/-- C9: the state blobs capture only the audited model's editable fields,
so an UPDATE whose previous and current objects have the same identity and
agree on every editable field value is discarded as a no-op — `absent` is
returned and nothing is stored — even if the objects differ on
non-editable fields. -/
theorem c9_noneditable_fields_invisible (st : LogState) (prev cur : Obj)
    (user : Option Nat) (extras : List String)
    (happ : prev.app_label = cur.app_label) (hobj : prev.object_name = cur.object_name)
    (hpk : prev.pk = cur.pk)
    (hvals : ∀ f ∈ editableFieldNames cur, prev.values.lookup f = cur.values.lookup f) :
    Logger.create st Action.UPDATE cur (some prev) user extras = .ok (st, none) :=
  create_noop_filter st Action.UPDATE cur (some prev) user extras rfl
    (by rw [Option.map_some', serializeObj_ext prev cur _ happ hobj hpk hvals])

/-- Witness for C9: previous and current widgets differ in the
non-editable `cache` field — the underlying object changed — yet the
UPDATE is discarded. -/
theorem c9_noneditable_fields_invisible_witness :
    (widgetNE "A" "s1").values ≠ (widgetNE "A" "s2").values ∧
    Logger.create initState Action.UPDATE (widgetNE "A" "s2")
      (some (widgetNE "A" "s1")) (some 1) [] = .ok (initState, none) :=
  ⟨by decide,
   c9_noneditable_fields_invisible initState (widgetNE "A" "s1") (widgetNE "A" "s2")
     (some 1) [] rfl rfl rfl (by decide)⟩

/-- C1, counterexample: two UPDATEs by the same actor with differing
extra-attribute sets (`color` vs `size`) do not remain two separate stored
records — the squash walk never compares extras, so the second UPDATE is
merged onto the first, leaving a single stored record carrying both extra
rows. -/
theorem c1_counterexample :
    (runLog (runLog initState
        Action.UPDATE (widget3 "B" "red" "xl") (some (widget3 "A" "red" "xl"))
        (some 1) ["color"])
      Action.UPDATE (widget3 "C" "red" "xl") (some (widget3 "B" "red" "xl"))
      (some 1) ["size"]).db.logs.length = 1 := by rfl

/-- C2, counterexample: reconciling a same-actor UPDATE against two
persisted same-actor UPDATE rows absorbs both, and the journal shows the
superseded row's deletion strictly before the merged record's save —
the opposite of the claimed persistence ordering. -/
theorem c2_counterexample :
    twoUpdatesFinal.db.journal = [Ev.delete 1, Ev.save 0] := by rfl

/-- C3, counterexample: calling `Logger.create_manual_extra` twice with
identical arguments stores two extra rows, not one — the method uses an
unconditional create, not create-if-absent. -/
theorem c3_counterexample :
    (runManualExtra (runManualExtra oneLogDB 0 "f" "v") 0 "f" "v").extraRows =
      [{ id := 0, log_id := 0, field_name := "f", field_value := "v" },
       { id := 1, log_id := 0, field_name := "f", field_value := "v" }] := by rfl

/-- C8, counterexample: the two distinct pairs `("a", "b c")` and
`("a b", "c")` produce the same dedup key `"a b c"`, so only one of them —
the later, overwriting the earlier — survives normalization. -/
theorem c8_counterexample :
    normalize_extras [] [("a", "b c"), ("a b", "c")] = [("a b", "c")] := by rfl

/-- If one `Logger.create` call returns `.ok`, `runLog` keeps its resulting
state. -/
theorem runLog_eq_of_create (st st' : LogState) (action : Action) (cur : Obj)
    (prevObj : Option Obj) (user : Option Nat) (extras : List String) (lg : Option Log)
    (h : Logger.create st action cur prevObj user extras = .ok (st', lg)) :
    runLog st action cur prevObj user extras = st' := by
  unfold runLog
  rw [h]

/-- When the no-op filter does not fire, `Logger.create` is `createMain`. -/
theorem create_not_noop (st : LogState) (action : Action) (cur : Obj)
    (prevObj : Option Obj) (user : Option Nat) (extras : List String)
    (h : ¬(prevObj.isSome ∧ (buildLog action cur prevObj user).previous_json_blob =
          some (buildLog action cur prevObj user).current_json_blob)) :
    Logger.create st action cur prevObj user extras =
      createMain st action cur prevObj user extras := by
  unfold Logger.create
  rw [if_neg h]

/-- Two widgets in different states fail the no-op blob comparison. -/
theorem widget_blob_ne (a b : String) (hab : a ≠ b) (act : Action) (u : Option Nat) :
    ¬((some (widget a)).isSome ∧
      (buildLog act (widget b) (some (widget a)) u).previous_json_blob =
        some (buildLog act (widget b) (some (widget a)) u).current_json_blob) := by
  intro hcon
  have h2 : widgetBlob a = widgetBlob b := Option.some.inj hcon.2
  have h3 : (("name", a) :: []) = (("name", b) :: []) := congrArg Blob.fields h2
  have h4 : a = b := congrArg (fun l => ((l.headI : String × String).2 : String)) h3
  exact hab h4

/-- C4: within one active sequence context, `CREATE(e, curr=A)` then
`UPDATE(e, prev=A, curr=B)` then `UPDATE(e, prev=B, curr=C)`, same actor,
same empty extras, leaves exactly one stored record for the entity — the
CREATE, its current blob now `C` — and neither intermediate UPDATE row is
in storage. -/
theorem c4_create_then_updates_squash (a b c : String) (hab : a ≠ b) (hbc : b ≠ c) :
    (runLog (runLog (runLog initState Action.CREATE (widget a) none (some 1) [])
        Action.UPDATE (widget b) (some (widget a)) (some 1) [])
        Action.UPDATE (widget c) (some (widget b)) (some 1) []).db.logs =
      [storedLog 0 Action.CREATE none c 1] := by
  have e1 : runLog initState Action.CREATE (widget a) none (some 1) [] = c4State a 1 := rfl
  have e2 : runLog (c4State a 1) Action.UPDATE (widget b) (some (widget a)) (some 1) [] =
      c4State b 2 := by
    apply runLog_eq_of_create _ _ _ _ _ _ _ (some (storedLog 0 Action.CREATE none b 1))
    rw [create_not_noop _ _ _ _ _ _ (widget_blob_ne a b hab _ _)]
    rfl
  have e3 : runLog (c4State b 2) Action.UPDATE (widget c) (some (widget b)) (some 1) [] =
      c4State c 3 := by
    apply runLog_eq_of_create _ _ _ _ _ _ _ (some (storedLog 0 Action.CREATE none c 1))
    rw [create_not_noop _ _ _ _ _ _ (widget_blob_ne b c hbc _ _)]
    rfl
  rw [e1, e2, e3]
  rfl

/-- Witness for C4 at concrete states `A`, `B`, `C`. -/
theorem c4_create_then_updates_squash_witness :
    ("A" : String) ≠ "B" ∧ ("B" : String) ≠ "C" ∧
    (runLog (runLog (runLog initState Action.CREATE (widget "A") none (some 1) [])
        Action.UPDATE (widget "B") (some (widget "A")) (some 1) [])
        Action.UPDATE (widget "C") (some (widget "B")) (some 1) []).db.logs =
      [storedLog 0 Action.CREATE none "C" 1] :=
  ⟨by decide, by decide,
   c4_create_then_updates_squash "A" "B" "C" (by decide) (by decide)⟩

/-- C5: after the UPDATE merge walk, a final accumulated record whose
current blob equals its own previous blob is discarded entirely — `absent`
is returned, and the record (with every pk collected by the walk) is
deleted if persisted. -/
theorem c5_cancellation (db : DB) (cand : Log) (ids : List Nat) (r : Log) (ds : List Nat)
    (hne : fetchByIds db ids ≠ [])
    (hact : cand.action = Action.UPDATE)
    (hwalk : updateWalk cand.user_id cand (fetchByIds db ids) = .ok (r, ds))
    (hcancel : r.previous_json_blob = some r.current_json_blob) :
    squash_log_sequence db cand ids =
      (if ds ++ r.id.toList = [] then .ok (db, none, ids)
       else .ok (db.deleteLogs (ds ++ r.id.toList), none,
                 ids.filter (fun pk => !((ds ++ r.id.toList).contains pk)))) := by
  simp only [squash_log_sequence]
  rw [if_neg hne, hact]
  rw [if_neg (by decide : ¬(Action.UPDATE = Action.DELETE)), if_pos rfl]
  rw [hwalk]
  by_cases htd : ds ++ r.id.toList = []
  · simp [finalizeSquash, hcancel, htd]
  · simp [finalizeSquash, hcancel, htd]

/-- Witness for C5: the double flip.  `UPDATE(prev=F, curr=T)` is persisted
as pk 0; reconciling `UPDATE(prev=T, curr=F)` by the same actor cancels
out: the squash deletes pk 0 and returns `absent`, and the two-call
pipeline leaves zero stored records. -/
theorem c5_cancellation_witness :
    squash_log_sequence flipDB flipCand [0] =
      .ok (flipDB.deleteLogs [0], none, []) ∧
    (runLog (runLog initState Action.UPDATE (widget "T") (some (widget "F")) (some 1) [])
        Action.UPDATE (widget "F") (some (widget "T")) (some 1) []).db.logs = [] := by
  constructor
  · have h := c5_cancellation flipDB flipCand [0]
      (storedLog 0 Action.UPDATE (some "F") "F" 1) []
      (by decide) rfl rfl rfl
    rw [h]
    rfl
  · rfl

/-- The DELETE walk over a same-actor prefix followed by a
differently-attributed record collects exactly the prefix's pks. -/
theorem deleteWalk_split (u : Option Nat) (good bad : List Log)
    (hg : ∀ g ∈ good, g.user_id = u)
    (hb : ∀ b0, bad.head? = some b0 → b0.user_id ≠ u) :
    deleteWalk u (good ++ bad) = idsOf good := by
  induction good with
  | nil =>
      cases bad with
      | nil => rfl
      | cons b0 rest =>
          simp only [List.nil_append, deleteWalk]
          rw [if_neg (hb b0 rfl)]
          rfl
  | cons g gs ih =>
      simp only [List.cons_append, deleteWalk, List.append_eq]
      rw [if_pos (hg g (List.mem_cons_self g gs))]
      rw [ih (fun x hx => hg x (List.mem_cons_of_mem g hx))]
      rfl

/-- C6: a DELETE candidate reconciled against a non-empty prior sequence
walks the priors newest-first, marks every same-actor record for deletion
until the first actor mismatch, leaves that record and everything older
stored, and is itself accepted unmodified together with the pruned id
list. -/
theorem c6_delete_walk (db : DB) (cand : Log) (ids : List Nat) (good bad : List Log)
    (hfetch : fetchByIds db ids = good ++ bad)
    (hne : good ++ bad ≠ [])
    (hact : cand.action = Action.DELETE)
    (hg : ∀ g ∈ good, g.user_id = cand.user_id)
    (hb : ∀ b0, bad.head? = some b0 → b0.user_id ≠ cand.user_id)
    (hnoop : cand.previous_json_blob ≠ some cand.current_json_blob) :
    squash_log_sequence db cand ids =
      (if idsOf good = [] then .ok (db, some cand, ids)
       else .ok (db.deleteLogs (idsOf good), some cand,
                 ids.filter (fun pk => !((idsOf good).contains pk)))) := by
  simp only [squash_log_sequence]
  rw [hfetch, if_neg hne, hact, if_pos rfl]
  rw [deleteWalk_split cand.user_id good bad hg hb]
  by_cases hgd : idsOf good = []
  · simp [finalizeSquash, hnoop, hgd]
  · simp [finalizeSquash, hnoop, hgd]

/-- Witness for C6: CREATE by actor 2, UPDATE by actor 1, then DELETE by
actor 1 — the UPDATE is marked and deleted, the walk stops at the CREATE
(actor mismatch), and the DELETE candidate is accepted unmodified. -/
theorem c6_delete_walk_witness :
    squash_log_sequence c6DB (buildLogLit Action.DELETE none "B" 1) [0, 1] =
      .ok (c6DB.deleteLogs [1], some (buildLogLit Action.DELETE none "B" 1), [0]) := by
  have h := c6_delete_walk c6DB (buildLogLit Action.DELETE none "B" 1) [0, 1]
    [storedLog 1 Action.UPDATE (some "A") "B" 1]
    [storedLog 0 Action.CREATE none "A" 2]
    rfl (by decide) rfl
    (by
      intro g hgmem
      simp only [List.mem_singleton] at hgmem
      rw [hgmem]
      rfl)
    (by
      intro b0 hb0
      have : b0 = storedLog 0 Action.CREATE none "A" 2 := Option.some.inj hb0.symm
      rw [this]
      decide)
    (by decide)
  rw [h]
  rfl

/-- C1, amended: the UPDATE merge walk never inspects extras; it stops
exactly at the first prior record whose actor differs (or when no prior is
left).  Over a same-actor, all-UPDATE prefix followed by a
differently-attributed record, it merges the candidate backward through
the whole prefix — accumulating field overlays into the oldest record —
and collects for deletion the pks of every persisted record it walked
from. -/
theorem c1_walk_stops_only_on_actor (u : Option Nat) (cand : Log) (good : List Log)
    (p : Log) (rest : List Log)
    (hcand : cand.action = Action.UPDATE)
    (hgu : ∀ g ∈ good, g.user_id = u)
    (hga : ∀ g ∈ good, g.action = Action.UPDATE)
    (hp : p.user_id ≠ u) :
    updateWalk u cand (good ++ p :: rest) =
      .ok (mergeAccum cand good, idsOf ((cand :: good).dropLast)) := by
  induction good generalizing cand with
  | nil =>
      simp only [List.nil_append, updateWalk]
      rw [if_pos hp]
      rfl
  | cons g gs ih =>
      simp only [List.cons_append, updateWalk, List.append_eq]
      rw [if_neg (fun hne => hne (hgu g (List.mem_cons_self g gs)))]
      rw [if_neg (by
        intro hor
        cases hor with
        | inl h => exact absurd (hga g (List.mem_cons_self g gs) ▸ h) (by decide)
        | inr h => exact absurd (hcand ▸ h) (by decide))]
      rw [ih { g with current_json_blob := mergeBlobs g.current_json_blob cand.current_json_blob }
        (hga g (List.mem_cons_self g gs))
        (fun x hx => hgu x (List.mem_cons_of_mem g hx))
        (fun x hx => hga x (List.mem_cons_of_mem g hx))]
      cases gs with
      | nil => rfl
      | cons x xs => rfl

/-- Witness for C1's amended walk property: a persisted same-actor UPDATE
followed by a differently-attributed record — the candidate merges through
the first and stops at the second. -/
theorem c1_walk_stops_only_on_actor_witness :
    updateWalk (some 1) (buildLogLit Action.UPDATE (some "A") "B" 1)
      ([storedLog 0 Action.UPDATE (some "X") "A" 1] ++
        (storedLog 1 Action.UPDATE (some "Y") "Z" 2) :: []) =
      .ok (storedLog 0 Action.UPDATE (some "X") "B" 1, []) := by
  have h := c1_walk_stops_only_on_actor (some 1)
    (buildLogLit Action.UPDATE (some "A") "B" 1)
    [storedLog 0 Action.UPDATE (some "X") "A" 1]
    (storedLog 1 Action.UPDATE (some "Y") "Z" 2) []
    rfl
    (by
      intro g hgmem
      simp only [List.mem_singleton] at hgmem
      rw [hgmem]
      rfl)
    (by
      intro g hgmem
      simp only [List.mem_singleton] at hgmem
      rw [hgmem]
      rfl)
    (by decide)
  rw [h]
  rfl


/-- Reading the key just written into the sequence-context mapping. -/
theorem seqGet_seqSet_self (m : SeqMap) (k : String) (v : List Nat) :
    seqGet (seqSet m k v) k = v := by
  simp [seqGet, seqSet, List.lookup]

/-- Dropping the entries of one key leaves lookups of other keys alone. -/
theorem lookup_filter_ne (m : SeqMap) (k k' : String) (h : k' ≠ k) :
    (m.filter (fun p => p.1 != k)).lookup k' = m.lookup k' := by
  have hkk : (k' == k) = false := beq_eq_false_iff_ne.mpr h
  induction m with
  | nil => rfl
  | cons a t ih =>
      simp only [List.filter_cons]
      by_cases hak : a.1 = k
      · have h1 : (a.1 != k) = false := by simp [bne, hak]
        have h2 : (k' == a.1) = false := by rw [hak]; exact hkk
        simp only [h1, Bool.false_eq_true, if_false, List.lookup, h2, ih]
      · have h1 : (a.1 != k) = true := by simp [bne, beq_eq_false_iff_ne, hak]
        simp only [h1, if_true, List.lookup, ih]

/-- Writing one key of the sequence-context mapping leaves other keys
unchanged. -/
theorem seqGet_seqSet_ne (m : SeqMap) (k k' : String) (v : List Nat) (h : k' ≠ k) :
    seqGet (seqSet m k v) k' = seqGet m k' := by
  have hne : (k' == k) = false := beq_eq_false_iff_ne.mpr h
  simp only [seqGet, seqSet, List.lookup, hne]
  rw [lookup_filter_ne m k k' h]

/-- A CREATE candidate passes through `squash_log_sequence` untouched:
no branch of the walk applies to it, and (as long as its blobs do not
cancel) the database, the candidate and the id list come back unchanged. -/
theorem squash_create (db : DB) (log : Log) (ids : List Nat)
    (hact : log.action = Action.CREATE)
    (hnc : log.previous_json_blob ≠ some log.current_json_blob) :
    squash_log_sequence db log ids = .ok (db, some log, ids) := by
  simp only [squash_log_sequence]
  by_cases hf : fetchByIds db ids = []
  · rw [if_pos hf]
  · rw [if_neg hf, hact]
    rw [if_neg (by decide : ¬(Action.CREATE = Action.DELETE)),
        if_neg (by decide : ¬(Action.CREATE = Action.UPDATE))]
    simp only [finalizeSquash]
    rw [if_neg hnc]
    rfl

/-- `DB.saveLog` appends exactly one save event to the journal. -/
theorem saveLog_journal (db : DB) (l : Log) :
    ∃ i, ((db.saveLog l).1).journal = db.journal ++ [Ev.save i] := by
  unfold DB.saveLog
  cases hid : l.id with
  | some i => exact ⟨i, rfl⟩
  | none => exact ⟨db.nextLogId, rfl⟩

/-- `extraGetOrCreate` touches only the extra table: logs, journal and the
log-id counter are unchanged. -/
theorem extraGetOrCreate_frame (db : DB) (l : Nat) (f v : String) :
    ((extraGetOrCreate db l f v).1).logs = db.logs ∧
    ((extraGetOrCreate db l f v).1).journal = db.journal ∧
    ((extraGetOrCreate db l f v).1).nextLogId = db.nextLogId := by
  unfold extraGetOrCreate
  cases hfind : db.extraRows.find?
      (fun r => r.log_id == l && r.field_name == f && r.field_value == v) with
  | none => exact ⟨rfl, rfl, rfl⟩
  | some r => exact ⟨rfl, rfl, rfl⟩

/-- `create_extra_logs` touches only the extra table. -/
theorem create_extra_logs_frame (db : DB) (lg : Log) (obj : Obj) (ex : List String) :
    (create_extra_logs db lg obj ex).logs = db.logs ∧
    (create_extra_logs db lg obj ex).journal = db.journal ∧
    (create_extra_logs db lg obj ex).nextLogId = db.nextLogId := by
  induction ex generalizing db with
  | nil => exact ⟨rfl, rfl, rfl⟩
  | cons e rest ih =>
      simp only [create_extra_logs, List.foldl_cons]
      cases hres : resolve_extra_field obj e with
      | none =>
          have := ih db
          simp only [create_extra_logs] at this
          simpa [hres] using this
      | some fv =>
          have h1 := extraGetOrCreate_frame db (lg.id.getD 0) fv.1 fv.2
          have h2 := ih (extraGetOrCreate db (lg.id.getD 0) fv.1 fv.2).1
          simp only [create_extra_logs] at h2
          simp only [hres]
          exact ⟨h2.1.trans h1.1, h2.2.1.trans h1.2.1, h2.2.2.trans h1.2.2⟩

/-- C10: a CREATE candidate reconciled against a sequence context with a
non-empty prior id list causes no squashing: no prior record is modified
or deleted, the candidate is persisted unmodified with the next fresh pk,
and the context's id list for the entity becomes the prior list with
exactly the new pk appended (other entities' lists untouched). -/
theorem c10_create_no_squash (st : LogState) (seqs : SeqMap) (obj : Obj)
    (prevObj : Option Obj) (user : Option Nat) (extras : List String)
    (hseq : st.seq = some seqs)
    (hprior : seqGet seqs (logKey (buildLog Action.CREATE obj prevObj user)) ≠ [])
    (hnoop : ¬(prevObj.isSome ∧ (buildLog Action.CREATE obj prevObj user).previous_json_blob =
        some (buildLog Action.CREATE obj prevObj user).current_json_blob)) :
    ∃ st' saved,
      Logger.create st Action.CREATE obj prevObj user extras = .ok (st', some saved) ∧
      saved = { buildLog Action.CREATE obj prevObj user with id := some st.db.nextLogId } ∧
      st'.db.logs = st.db.logs ++ [saved] ∧
      st'.db.journal = st.db.journal ++ [Ev.save st.db.nextLogId] ∧
      ∃ seqs', st'.seq = some seqs' ∧
        seqGet seqs' (logKey (buildLog Action.CREATE obj prevObj user)) =
          seqGet seqs (logKey (buildLog Action.CREATE obj prevObj user)) ++ [st.db.nextLogId] ∧
        ∀ k, k ≠ logKey (buildLog Action.CREATE obj prevObj user) →
          seqGet seqs' k = seqGet seqs k := by
  have hnc : (buildLog Action.CREATE obj prevObj user).previous_json_blob ≠
      some (buildLog Action.CREATE obj prevObj user).current_json_blob := by
    intro hcon
    apply hnoop
    refine ⟨?_, hcon⟩
    cases prevObj with
    | none => exact absurd hcon (by simp [buildLog])
    | some p => rfl
  rw [create_not_noop st Action.CREATE obj prevObj user extras hnoop]
  simp only [createMain]
  simp only [hseq]
  rw [squash_create st.db (buildLog Action.CREATE obj prevObj user)
      (seqGet seqs (logKey (buildLog Action.CREATE obj prevObj user))) rfl hnc]
  refine ⟨_, _, rfl, rfl, ?_, ?_, _, rfl, ?_, ?_⟩
  · exact (create_extra_logs_frame _ _ _ _).1.trans rfl
  · exact (create_extra_logs_frame _ _ _ _).2.1.trans rfl
  · show seqGet (seqSet (seqSet seqs (logKey (buildLog Action.CREATE obj prevObj user))
        (seqGet seqs (logKey (buildLog Action.CREATE obj prevObj user))))
        (logKey (buildLog Action.CREATE obj prevObj user))
        (seqGet (seqSet seqs (logKey (buildLog Action.CREATE obj prevObj user))
          (seqGet seqs (logKey (buildLog Action.CREATE obj prevObj user))))
          (logKey (buildLog Action.CREATE obj prevObj user)) ++ [st.db.nextLogId]))
        (logKey (buildLog Action.CREATE obj prevObj user)) =
      seqGet seqs (logKey (buildLog Action.CREATE obj prevObj user)) ++ [st.db.nextLogId]
    rw [seqGet_seqSet_self, seqGet_seqSet_self]
  · intro k hk
    show seqGet (seqSet (seqSet seqs (logKey (buildLog Action.CREATE obj prevObj user))
        (seqGet seqs (logKey (buildLog Action.CREATE obj prevObj user))))
        (logKey (buildLog Action.CREATE obj prevObj user))
        (seqGet (seqSet seqs (logKey (buildLog Action.CREATE obj prevObj user))
          (seqGet seqs (logKey (buildLog Action.CREATE obj prevObj user))))
          (logKey (buildLog Action.CREATE obj prevObj user)) ++ [st.db.nextLogId])) k =
      seqGet seqs k
    rw [seqGet_seqSet_ne _ _ _ _ hk, seqGet_seqSet_ne _ _ _ _ hk]

/-- Witness for C10: a CREATE reconciled against a context already holding
pk 0 for the entity â nothing is squashed, the new row gets pk 1, and the
id list becomes `[0, 1]`. -/
theorem c10_create_no_squash_witness :
    ∃ st' saved,
      Logger.create oneLogState Action.CREATE (widget "B") none (some 1) [] =
        .ok (st', some saved) ∧
      saved = { buildLog Action.CREATE (widget "B") none (some 1) with
                  id := some oneLogState.db.nextLogId } ∧
      st'.db.logs = oneLogState.db.logs ++ [saved] ∧
      st'.db.journal = oneLogState.db.journal ++ [Ev.save oneLogState.db.nextLogId] ∧
      ∃ seqs', st'.seq = some seqs' ∧
        seqGet seqs' (logKey (buildLog Action.CREATE (widget "B") none (some 1))) =
          seqGet [("app-Widget-1", [0])]
            (logKey (buildLog Action.CREATE (widget "B") none (some 1))) ++
            [oneLogState.db.nextLogId] ∧
        ∀ k, k ≠ logKey (buildLog Action.CREATE (widget "B") none (some 1)) →
          seqGet seqs' k = seqGet [("app-Widget-1", [0])] k :=
  c10_create_no_squash oneLogState [("app-Widget-1", [0])] (widget "B") none (some 1) []
    rfl (by decide) (by decide)


/-- The squash tail only ever appends delete events to the journal. -/
theorem finalizeSquash_journal (db : DB) (ids : List Nat) (resultant : Log)
    (dels : List Nat) :
    ∃ ds : List Nat,
      (finalizeSquash db ids resultant dels).1.journal = db.journal ++ ds.map Ev.delete := by
  unfold finalizeSquash
  by_cases hc : resultant.previous_json_blob = some resultant.current_json_blob
  · by_cases hd : dels ++ resultant.id.toList = []
    · exact ⟨[], by simp [hc, hd]⟩
    · exact ⟨dels ++ resultant.id.toList, by simp [hc, hd, DB.deleteLogs]⟩
  · by_cases hd : dels = []
    · exact ⟨[], by simp [hc, hd]⟩
    · exact ⟨dels, by simp [hc, hd, DB.deleteLogs]⟩

/-- `squash_log_sequence` only ever appends delete events to the journal. -/
theorem squash_journal (db : DB) (log : Log) (ids : List Nat)
    (db' : DB) (r : Option Log) (ids' : List Nat)
    (h : squash_log_sequence db log ids = .ok (db', r, ids')) :
    ∃ ds : List Nat, db'.journal = db.journal ++ ds.map Ev.delete := by
  simp only [squash_log_sequence] at h
  by_cases hf : fetchByIds db ids = []
  · rw [if_pos hf] at h
    injection h with h1
    injection h1 with h2 h3
    exact ⟨[], by rw [← h2]; simp⟩
  · rw [if_neg hf] at h
    by_cases hd : log.action = Action.DELETE
    · rw [if_pos hd] at h
      replace h : (Except.ok
          (finalizeSquash db ids log (deleteWalk log.user_id (fetchByIds db ids))) :
          Except String (DB × Option Log × List Nat)) = .ok (db', r, ids') := h
      have h1 := Except.ok.inj h
      have h2 : db' = (finalizeSquash db ids log (deleteWalk log.user_id (fetchByIds db ids))).1 := by
        rw [h1]
      obtain ⟨ds, hds⟩ := finalizeSquash_journal db ids log (deleteWalk log.user_id (fetchByIds db ids))
      exact ⟨ds, by rw [h2]; exact hds⟩
    · rw [if_neg hd] at h
      by_cases hu : log.action = Action.UPDATE
      · rw [if_pos hu] at h
        cases hw : updateWalk log.user_id log (fetchByIds db ids) with
        | error e =>
            simp only [hw] at h
            exact absurd h (by simp)
        | ok rd =>
            rcases rd with ⟨r0, ds0⟩
            simp only [hw] at h
            have h1 := Except.ok.inj h
            have h2 : db' = (finalizeSquash db ids r0 ds0).1 := by rw [h1]
            obtain ⟨ds, hds⟩ := finalizeSquash_journal db ids r0 ds0
            exact ⟨ds, by rw [h2]; exact hds⟩
      · rw [if_neg hu] at h
        replace h : (Except.ok (finalizeSquash db ids log []) :
            Except String (DB × Option Log × List Nat)) = .ok (db', r, ids') := h
        have h1 := Except.ok.inj h
        have h2 : db' = (finalizeSquash db ids log []).1 := by rw [h1]
        obtain ⟨ds, hds⟩ := finalizeSquash_journal db ids log []
        exact ⟨ds, by rw [h2]; exact hds⟩

/-- C2, amended: within one `Logger.create` call, every deletion of a
superseded record happens during reconciliation, strictly before the save
of the resultant record — the journal suffix of the call is a block of
delete events followed by a block of save events, never the reverse. -/
theorem c2_deletes_precede_saves (st : LogState) (action : Action) (cur : Obj)
    (prevObj : Option Obj) (user : Option Nat) (extras : List String)
    (st' : LogState) (lg : Option Log)
    (h : Logger.create st action cur prevObj user extras = .ok (st', lg)) :
    ∃ ds ss : List Nat,
      st'.db.journal = st.db.journal ++ ds.map Ev.delete ++ ss.map Ev.save := by
  unfold Logger.create at h
  by_cases hnoop : prevObj.isSome ∧ (buildLog action cur prevObj user).previous_json_blob =
      some (buildLog action cur prevObj user).current_json_blob
  · rw [if_pos hnoop] at h
    injection h with h1
    injection h1 with h2 h3
    exact ⟨[], [], by rw [← h2]; simp⟩
  · rw [if_neg hnoop] at h
    unfold createMain at h
    cases hs : st.seq with
    | none =>
        simp only [hs] at h
        injection h with h1
        injection h1 with h2 h3
        obtain ⟨i, hi⟩ := saveLog_journal st.db (buildLog action cur prevObj user)
        refine ⟨[], [i], ?_⟩
        rw [← h2]
        have hf := (create_extra_logs_frame
          (st.db.saveLog (buildLog action cur prevObj user)).1
          (st.db.saveLog (buildLog action cur prevObj user)).2 cur extras).2.1
        simp only [hf, hi]
        simp
    | some seqs =>
        simp only [hs] at h
        cases hsq : squash_log_sequence st.db (buildLog action cur prevObj user)
            (seqGet seqs (logKey (buildLog action cur prevObj user))) with
        | error e =>
            simp only [hsq] at h
            exact absurd h (by simp)
        | ok tri =>
            rcases tri with ⟨db1, logOpt, ids2⟩
            simp only [hsq] at h
            obtain ⟨ds, hds⟩ := squash_journal _ _ _ _ _ _ hsq
            cases logOpt with
            | none =>
                simp only [] at h
                injection h with h1
                injection h1 with h2 h3
                refine ⟨ds, [], ?_⟩
                rw [← h2]
                simpa using hds
            | some lg2 =>
                simp only [] at h
                injection h with h1
                injection h1 with h2 h3
                obtain ⟨i, hi⟩ := saveLog_journal db1 lg2
                refine ⟨ds, [i], ?_⟩
                rw [← h2]
                have hf := (create_extra_logs_frame (db1.saveLog lg2).1
                  (db1.saveLog lg2).2 cur extras).2.1
                simp only [hf, hi, hds]
                simp

/-- Witness for C2's amended ordering: the two-same-actor-priors
reconciliation — its journal suffix is the delete block `[delete 1]`
followed by the save block `[save 0]`. -/
theorem c2_deletes_precede_saves_witness :
    ∃ ds ss : List Nat,
      twoUpdatesFinal.db.journal =
        twoUpdatesState.db.journal ++ ds.map Ev.delete ++ ss.map Ev.save :=
  c2_deletes_precede_saves twoUpdatesState Action.UPDATE (widget "C")
    (some (widget "B")) (some 1) [] twoUpdatesFinal
    (some (storedLog 0 Action.UPDATE (some "X") "C" 1)) (by rfl)

/-- `find?` over an appended list when the first part has no hit. -/
theorem find?_append_of_none {α : Type} (p : α → Bool) (l1 l2 : List α)
    (h : l1.find? p = none) : (l1 ++ l2).find? p = l2.find? p := by
  rw [List.find?_append, h]
  rfl

/-- C3, amended: the helper `create_extra` (`helpers.py`), which uses
get-or-create, is idempotent — a second call with identical arguments
returns the same database and the same stored row — whereas
`Logger.create_manual_extra` inserts a fresh row on every call. -/
theorem c3_create_extra_idempotent (db : DB) (lid : Nat) (fn fv : String) :
    create_extra (create_extra db lid fn fv).1 lid fn fv = create_extra db lid fn fv := by
  unfold create_extra extraGetOrCreate
  cases hfind : db.extraRows.find?
      (fun r => r.log_id == lid && r.field_name == fn && r.field_value == fv) with
  | some r => simp only [hfind]
  | none =>
      simp only [hfind]
      rw [find?_append_of_none _ _ _ hfind]
      simp only [List.find?_cons]
      simp

/-- The keys produced by one dict-assignment step of the dedup loop. -/
theorem insertExtraPair_keys (acc : List (String × (String × String))) (kv : String × String) :
    (insertExtraPair acc kv).map Prod.fst =
      if acc.any (fun p => p.1 == dedupKey kv) then acc.map Prod.fst
      else acc.map Prod.fst ++ [dedupKey kv] := by
  unfold insertExtraPair
  by_cases hc : acc.any (fun p => p.1 == dedupKey kv)
  · rw [if_pos hc, if_pos hc, List.map_map]
    apply List.map_congr_left
    intro p hp
    by_cases hpk : p.1 = dedupKey kv
    · simp [hpk]
    · simp [hpk]
  · rw [if_neg hc, if_neg hc, List.map_append]
    rfl

theorem insertExtraPair_keyed (acc : List (String × (String × String)))
    (kv : String × String) (h : ∀ q ∈ acc, q.1 = dedupKey q.2) :
    ∀ q ∈ insertExtraPair acc kv, q.1 = dedupKey q.2 := by
  intro q hq
  unfold insertExtraPair at hq
  by_cases hc : acc.any (fun p => p.1 == dedupKey kv)
  · rw [if_pos hc] at hq
    obtain ⟨p, hp, hpq⟩ := List.mem_map.mp hq
    by_cases hpk : (p.1 == dedupKey kv) = true
    · rw [if_pos hpk] at hpq
      rw [← hpq]
      exact eq_of_beq hpk
    · rw [if_neg hpk] at hpq
      rw [← hpq]
      exact h p hp
  · rw [if_neg hc] at hq
    rcases List.mem_append.mp hq with hq1 | hq2
    · exact h q hq1
    · rw [List.mem_singleton.mp hq2]

theorem insertExtraPair_nodup (acc : List (String × (String × String)))
    (kv : String × String) (hnd : (acc.map Prod.fst).Nodup) :
    ((insertExtraPair acc kv).map Prod.fst).Nodup := by
  rw [insertExtraPair_keys]
  by_cases hc : acc.any (fun p => p.1 == dedupKey kv)
  · rw [if_pos hc]
    exact hnd
  · rw [if_neg hc]
    rw [← List.concat_eq_append]
    refine List.Nodup.concat ?_ hnd
    intro hmem
    obtain ⟨p, hp, hpk⟩ := List.mem_map.mp hmem
    refine hc (List.any_eq_true.mpr ⟨p, hp, ?_⟩)
    rw [hpk]
    exact beq_self_eq_true _

theorem insertExtraPair_key_mem (acc : List (String × (String × String)))
    (kv : String × String) :
    dedupKey kv ∈ (insertExtraPair acc kv).map Prod.fst := by
  rw [insertExtraPair_keys]
  by_cases hc : acc.any (fun p => p.1 == dedupKey kv)
  · rw [if_pos hc]
    obtain ⟨p, hp, hpk⟩ := List.any_eq_true.mp hc
    exact List.mem_map.mpr ⟨p, hp, eq_of_beq hpk⟩
  · rw [if_neg hc]
    exact List.mem_append.mpr (Or.inr (List.mem_singleton.mpr rfl))

theorem insertExtraPair_key_mono (acc : List (String × (String × String)))
    (kv : String × String) (k : String) (h : k ∈ acc.map Prod.fst) :
    k ∈ (insertExtraPair acc kv).map Prod.fst := by
  rw [insertExtraPair_keys]
  by_cases hc : acc.any (fun p => p.1 == dedupKey kv)
  · rw [if_pos hc]
    exact h
  · rw [if_neg hc]
    exact List.mem_append.mpr (Or.inl h)

theorem insertExtraPair_snd_sub (acc : List (String × (String × String)))
    (kv : String × String) (q : String × (String × String))
    (hq : q ∈ insertExtraPair acc kv) : q.2 = kv ∨ q ∈ acc := by
  unfold insertExtraPair at hq
  by_cases hc : acc.any (fun p => p.1 == dedupKey kv)
  · rw [if_pos hc] at hq
    obtain ⟨p, hp, hpq⟩ := List.mem_map.mp hq
    by_cases hpk : (p.1 == dedupKey kv) = true
    · rw [if_pos hpk] at hpq
      left
      rw [← hpq]
    · rw [if_neg hpk] at hpq
      right
      rw [← hpq]
      exact hp
  · rw [if_neg hc] at hq
    rcases List.mem_append.mp hq with hq1 | hq2
    · exact Or.inr hq1
    · left
      rw [List.mem_singleton.mp hq2]

theorem foldl_insertExtraPair_spec (l : List (String × String))
    (acc : List (String × (String × String)))
    (hkeyed : ∀ q ∈ acc, q.1 = dedupKey q.2)
    (hnd : (acc.map Prod.fst).Nodup) :
    (∀ q ∈ l.foldl insertExtraPair acc, q.1 = dedupKey q.2) ∧
    ((l.foldl insertExtraPair acc).map Prod.fst).Nodup ∧
    (∀ k, k ∈ acc.map Prod.fst → k ∈ (l.foldl insertExtraPair acc).map Prod.fst) ∧
    (∀ kv ∈ l, dedupKey kv ∈ (l.foldl insertExtraPair acc).map Prod.fst) ∧
    (∀ q ∈ l.foldl insertExtraPair acc, q.2 ∈ l ∨ q ∈ acc) := by
  induction l generalizing acc with
  | nil =>
      exact ⟨hkeyed, hnd, fun k hk => hk,
        fun kv hkv => absurd hkv (List.not_mem_nil kv),
        fun q hq => Or.inr hq⟩
  | cons a t ih =>
      simp only [List.foldl_cons]
      obtain ⟨ih1, ih2, ih3, ih4, ih5⟩ := ih (insertExtraPair acc a)
        (insertExtraPair_keyed acc a hkeyed) (insertExtraPair_nodup acc a hnd)
      refine ⟨ih1, ih2, ?_, ?_, ?_⟩
      · intro k hk
        exact ih3 k (insertExtraPair_key_mono acc a k hk)
      · intro kv hkv
        rcases List.mem_cons.mp hkv with h1 | h2
        · rw [h1]
          exact ih3 (dedupKey a) (insertExtraPair_key_mem acc a)
        · exact ih4 kv h2
      · intro q hq
        rcases ih5 q hq with h1 | h2
        · exact Or.inl (List.mem_cons_of_mem a h1)
        · rcases insertExtraPair_snd_sub acc a q h2 with h3 | h4
          · refine Or.inl ?_
            rw [h3]
            exact List.mem_cons_self a t
          · exact Or.inr h4

/-- C8, amended: `normalize_extras` deduplicates by the joined string
`f"{field} {value}"`, not by the exact pair: the output's dedup-key strings
are pairwise distinct, every input pair's key string is represented, and
every output pair is an input pair — so identical pairs collapse to one,
but two distinct pairs are both retained only when their joined key
strings differ (the counterexample shows a colliding pair being lost). -/
theorem c8_dedup_by_key_string (resolved manual : List (String × String)) :
    ((normalize_extras resolved manual).map dedupKey).Nodup ∧
    (∀ kv ∈ resolved ++ manual,
      dedupKey kv ∈ (normalize_extras resolved manual).map dedupKey) ∧
    (∀ kv ∈ normalize_extras resolved manual, kv ∈ resolved ++ manual) := by
  obtain ⟨h1, h2, h3, h4, h5⟩ :=
    foldl_insertExtraPair_spec (resolved ++ manual) [] (by simp) (by simp)
  have hkeys : (normalize_extras resolved manual).map dedupKey =
      ((resolved ++ manual).foldl insertExtraPair []).map Prod.fst := by
    unfold normalize_extras
    rw [List.map_map]
    exact List.map_congr_left (fun q hq => (h1 q hq).symm)
  refine ⟨?_, ?_, ?_⟩
  · rw [hkeys]
    exact h2
  · intro kv hkv
    rw [hkeys]
    exact h4 kv hkv
  · intro kv hkv
    unfold normalize_extras at hkv
    obtain ⟨q, hq, hq2⟩ := List.mem_map.mp hkv
    rcases h5 q hq with h | h
    · rw [← hq2]
      exact h
    · exact absurd h (List.not_mem_nil q)



/-- Witness for C3's amended idempotence at a concrete database and
triple. -/
theorem c3_create_extra_idempotent_witness :
    create_extra (create_extra oneLogDB 0 "f" "v").1 0 "f" "v" =
      create_extra oneLogDB 0 "f" "v" :=
  c3_create_extra_idempotent oneLogDB 0 "f" "v"

/-- Witness for C8's amended dedup property at a concrete input. -/
theorem c8_dedup_by_key_string_witness :
    dedupKey ("x", "y") ∈ (normalize_extras [("x", "y")] []).map dedupKey :=
  (c8_dedup_by_key_string [("x", "y")] []).2.1 ("x", "y") (by decide)

end Loggings
